import Mathlib

/-!
Verification of the internxt-cli streaming upload pipeline.

The development shallowly embeds the upload pipeline of the repository:
the transfer client (`UploadService.uploadFile`), the CLI upload command
(`Upload.run` in `src/commands/upload.ts`, including its SIGINT handler
and its call into the drive catalog), and the streaming cipher.

The transfer client and the streaming cipher are implemented in files
that are not part of the provided sources (only the unit test
`test/services/network/upload.service.test.ts` of the transfer client
is); their models below are marked `Modelled from the spec:` and follow
the specification's description of their behaviour.
-/

namespace Internxt

/-! Transfer-client data model. -/

/-- One underlying I/O progress tick as the HTTP layer reports it:
bytes sent so far and the total byte count of the body. -/
structure ProgressTick where
  loaded : Nat
  total : Nat
deriving Repr, DecidableEq

/-- The storage endpoint's response, reduced to the header the transfer
client inspects: the optional ETag-style content fingerprint. -/
structure EndpointResponse where
  etag : Option String
deriving Repr, DecidableEq

/-- Error taxonomy of the transfer client. -/
inductive UploadError where
  | missingFingerprint
  | transferAborted
  | transferFault
deriving Repr, DecidableEq

/-- Observable events of one run of the transfer client, in order: progress
callback invocations, a successful resolution carrying the fingerprint, or a
rejection carrying an error. -/
inductive UploadEvent where
  | progress (pct : Nat)
  | resolved (etag : String)
  | rejected (e : UploadError)
deriving Repr, DecidableEq

/-- Modelled from the spec: the human-readable message attached to each
transfer-client error; the unit test only pins down that the
missing-fingerprint message mentions the text "Missing Etag". -/
def uploadErrorMessage : UploadError → String
  | UploadError.missingFingerprint => "Missing Etag in upload response"
  | UploadError.transferAborted => "Upload aborted"
  | UploadError.transferFault => "Network error during upload"

/-- Percentage reported for one progress tick: the integer part of
bytesSent / totalBytes scaled by the transfer weight. -/
def tickPct (w : Nat) (t : ProgressTick) : Nat :=
  t.loaded * w / t.total

/-- The progress-callback events produced by a sequence of I/O ticks. -/
def tickEvents (w : Nat) (ticks : List ProgressTick) : List UploadEvent :=
  ticks.map (fun t => UploadEvent.progress (tickPct w t))

/-- Modelled from the spec: `UploadService.uploadFile`
(`src/services/network/upload.service.ts` is absent from the provided
sources; only its unit test is present). Per spec §4.2: each underlying
I/O tick invokes the progress callback with
floor(bytesSent / totalBytes * transferWeight); if the abort handle was
triggered before the response arrived the operation rejects with
`TransferAbortedError` and no fingerprint is returned; otherwise, if the
response carries a non-empty fingerprint header the callback is invoked a
final time with 100 and the operation resolves with that fingerprint, and
if the fingerprint is absent or empty the operation rejects with
`MissingFingerprintError`. `ticks` are the I/O ticks delivered before the
operation settled; the response content plays no role when the upload was
aborted, whether or not the request was already dispatched. -/
def uploadFile (w : Nat) (ticks : List ProgressTick) (abortedBeforeResponse : Bool)
    (resp : EndpointResponse) : List UploadEvent :=
  if abortedBeforeResponse then
    tickEvents w ticks ++ [UploadEvent.rejected UploadError.transferAborted]
  else
    match resp.etag with
    | none => tickEvents w ticks ++ [UploadEvent.rejected UploadError.missingFingerprint]
    | some e =>
      if e = "" then
        tickEvents w ticks ++ [UploadEvent.rejected UploadError.missingFingerprint]
      else
        tickEvents w ticks ++ [UploadEvent.progress 100, UploadEvent.resolved e]

/-- The sequence of values passed to the progress callback during a run. -/
def progressValues (evs : List UploadEvent) : List Nat :=
  evs.filterMap (fun e =>
    match e with
    | UploadEvent.progress p => some p
    | _ => none)

/-- The fingerprint the run resolved with, when it resolved. -/
def resolvedEtag (evs : List UploadEvent) : Option String :=
  (evs.filterMap (fun e =>
    match e with
    | UploadEvent.resolved s => some s
    | _ => none)).head?

/-- Whether the run resolved successfully. -/
def succeeds (evs : List UploadEvent) : Bool :=
  evs.any (fun e =>
    match e with
    | UploadEvent.resolved _ => true
    | _ => false)

/-! CLI upload command (`src/commands/upload.ts`). -/

/-- The result awaited from the network facade's upload promise; the
command reads its `fileId`. -/
structure UploadResult where
  fileId : String
deriving Repr, DecidableEq

/-- Errors `Upload.run` can reject with: the empty-file guard's own error,
a failure propagated from the upload promise, or a failure of the drive
catalog's `createFile` call. -/
inductive CmdError where
  | emptyFile
  | uploadFailed (e : UploadError)
  | createFileFailed
deriving Repr, DecidableEq

/-- Message of the empty-file guard, verbatim from `src/commands/upload.ts`. -/
def emptyFileMsg : String := "File is empty, cannot upload empty files as is not allowed."

/-- Warning emitted when no folder id flag was given, verbatim from
`src/commands/upload.ts`. -/
def warningMsg : String := "No folder id provided, uploading to root folder"

/-- Message of each command-level error. -/
def cmdErrorMessage : CmdError → String
  | CmdError.emptyFile => emptyFileMsg
  | CmdError.uploadFailed e => uploadErrorMessage e
  | CmdError.createFileFailed => "Failed to create file in Drive"

/-- Observable steps of one run of the upload command, in program order. -/
inductive RunStep where
  | warning (msg : String)
  | prepareNetwork
  | startUpload
  | installSigintHandler
  | createFile (folderId : Int) (fileId : String)
  | successMessage (uuid : String)
deriving Repr, DecidableEq

/-- Outcomes of the external collaborators of `Upload.run`: what awaiting
the upload promise yields, whether the catalog's `createFile` call
succeeds, the user's root folder id, and the uuid of the created entry. -/
structure RunEnv where
  uploadResult : Except UploadError UploadResult
  createFileOk : Bool
  root_folder_id : Int
  createdUuid : String

/-- JavaScript truthiness of the optional integer `folderId` flag:
`undefined` and `0` are falsy. -/
def truthy : Option Int → Bool
  | none => false
  | some n => n != 0

/-- `Upload.run` from `src/commands/upload.ts`: stats the file and throws
when its size is zero (before any network step); warns when the folder id
flag is falsy; prepares the network; starts the upload and installs the
SIGINT handler; awaits the upload promise, propagating its failure; then
registers the file in the drive catalog under `folderId ?? root_folder_id`
and prints the success message. The trace lists the steps that ran. -/
def Upload.run (fileSize : Nat) (folderId : Option Int) (env : RunEnv) :
    List RunStep × Except CmdError UploadResult :=
  if fileSize = 0 then
    ([], Except.error CmdError.emptyFile)
  else
    let warnSteps := if truthy folderId then [] else [RunStep.warning warningMsg]
    let steps1 := warnSteps ++
      [RunStep.prepareNetwork, RunStep.startUpload, RunStep.installSigintHandler]
    match env.uploadResult with
    | Except.error e => (steps1, Except.error (CmdError.uploadFailed e))
    | Except.ok res =>
      let fid := folderId.getD env.root_folder_id
      let steps2 := steps1 ++ [RunStep.createFile fid res.fileId]
      if env.createFileOk then
        (steps2 ++ [RunStep.successMessage env.createdUuid], Except.ok res)
      else
        (steps2, Except.error CmdError.createFileFailed)

/-- Actions of the SIGINT handler installed by `Upload.run`
(`src/commands/upload.ts`): it aborts the transfer with the reason
string and then exits the process with status 1. -/
inductive SigintAction where
  | abortCall (reason : String)
  | processExit (code : Nat)
deriving Repr, DecidableEq

/-- The handler body, in program order, from `src/commands/upload.ts`. -/
def sigintHandler : List SigintAction :=
  [SigintAction.abortCall "SIGINT received", SigintAction.processExit 1]

/-! Streaming cipher. -/

/-- Running state of the streaming cipher: the derived key material and
the byte counter, advanced monotonically as bytes are consumed. -/
structure CipherContext where
  key : List Nat
  counter : Nat
deriving Repr, DecidableEq

/-- Modelled from the spec: key derivation of the streaming cipher
(`CryptoService` is absent from the provided sources). Per spec §4.1 the
key material is a deterministic function of the shared secret and the
object context, so that distinct objects get distinct keystreams. -/
def deriveKey (sharedSecret objectContext : List Nat) : List Nat :=
  (sharedSecret ++ objectContext).map (fun b => (b * 131 + 17) % 256)

/-- Modelled from the spec: a fresh cipher context derived from the shared
secret and the object context, with the counter at zero. -/
def initCipher (sharedSecret objectContext : List Nat) : CipherContext :=
  CipherContext.mk (deriveKey sharedSecret objectContext) 0

/-- Modelled from the spec: the keystream byte at a given position, a
deterministic function of the derived key and the counter position. -/
def keystreamByte (key : List Nat) (pos : Nat) : Nat :=
  (key.foldl (fun a b => (a * 257 + b + 1) % 65536) (pos + 1)) % 256

/-- Modelled from the spec: encrypt one byte, XORing it with the keystream
at the current counter and advancing the counter. -/
def encryptByte (ctx : CipherContext) (b : Nat) : Nat × CipherContext :=
  (Nat.xor (b % 256) (keystreamByte ctx.key ctx.counter),
    CipherContext.mk ctx.key (ctx.counter + 1))

/-- Modelled from the spec: encrypt one chunk of the source stream,
threading the cipher context byte by byte. -/
def encryptChunk : CipherContext → List Nat → List Nat × CipherContext
  | ctx, [] => ([], ctx)
  | ctx, b :: bs =>
    let step := encryptByte ctx b
    let rest := encryptChunk step.2 bs
    (step.1 :: rest.1, rest.2)

/-- Modelled from the spec: the streaming encryption
`encrypt(sourceStream, sharedSecret, objectContext) -> cipherStream` of
spec §4.1. The source stream arrives as a list of chunks; a fresh cipher
context is derived from the shared secret and object context and threaded
through the chunks, and the ciphertext chunks are concatenated. -/
def encrypt (sourceChunks : List (List Nat)) (sharedSecret objectContext : List Nat) :
    List Nat :=
  (sourceChunks.foldl
    (fun acc chunk =>
      let r := encryptChunk acc.2 chunk
      (acc.1 ++ r.1, r.2))
    (([] : List Nat), initCipher sharedSecret objectContext)).1

/-- Reference form of the cipher: encrypt a flat byte list starting at a
given counter position. Used to relate chunked runs to the byte stream. -/
def encryptBytesFrom (key : List Nat) : Nat → List Nat → List Nat
  | _, [] => []
  | c, b :: bs => Nat.xor (b % 256) (keystreamByte key c) :: encryptBytesFrom key (c + 1) bs

/-! Helper lemmas. -/

theorem progressValues_append (a b : List UploadEvent) :
    progressValues (a ++ b) = progressValues a ++ progressValues b := by
  simp [progressValues]

theorem progressValues_tickEvents (w : Nat) (ticks : List ProgressTick) :
    progressValues (tickEvents w ticks) = ticks.map (tickPct w) := by
  induction ticks with
  | nil => rfl
  | cons t ts ih => simpa [tickEvents, progressValues] using ih

theorem resolvedEtag_tickEvents_append (w : Nat) (ticks : List ProgressTick)
    (tail : List UploadEvent) :
    resolvedEtag (tickEvents w ticks ++ tail) = resolvedEtag tail := by
  induction ticks with
  | nil => rfl
  | cons t ts ih => simpa [tickEvents, resolvedEtag] using ih

theorem succeeds_tickEvents_append (w : Nat) (ticks : List ProgressTick)
    (tail : List UploadEvent) :
    succeeds (tickEvents w ticks ++ tail) = succeeds tail := by
  induction ticks with
  | nil => rfl
  | cons t ts ih => simp [tickEvents, succeeds]

theorem uploadFile_eq_tickEvents_append (w : Nat) (ticks : List ProgressTick) (ab : Bool)
    (resp : EndpointResponse) :
    ∃ tail, uploadFile w ticks ab resp = tickEvents w ticks ++ tail := by
  unfold uploadFile
  cases ab with
  | true => exact ⟨_, rfl⟩
  | false =>
    match resp.etag with
    | none => exact ⟨_, rfl⟩
    | some e =>
      by_cases he : e = ""
      · simp only [he, if_pos rfl, if_neg]
        exact ⟨_, rfl⟩
      · simp only [if_neg he]
        exact ⟨_, rfl⟩

theorem uploadFile_shape (w : Nat) (ticks : List ProgressTick) (ab : Bool)
    (resp : EndpointResponse) :
    (∃ err, uploadFile w ticks ab resp
        = tickEvents w ticks ++ [UploadEvent.rejected err]) ∨
    (∃ e, e ≠ "" ∧ uploadFile w ticks ab resp
        = tickEvents w ticks ++ [UploadEvent.progress 100, UploadEvent.resolved e]) := by
  unfold uploadFile
  cases ab with
  | true => exact Or.inl ⟨_, rfl⟩
  | false =>
    match resp.etag with
    | none => exact Or.inl ⟨_, rfl⟩
    | some e =>
      by_cases he : e = ""
      · exact Or.inl ⟨UploadError.missingFingerprint, by simp [he]⟩
      · exact Or.inr ⟨e, he, by simp [he]⟩

/-! Theorems for the claims. -/

/-- C1: for every upload whose endpoint response lacks the fingerprint
(ETag) header, `uploadFile` rejects with `MissingFingerprintError` — an
error whose message mentions the missing fingerprint — and no resolved
fingerprint is returned to the caller. -/
theorem c1_missing_fingerprint_fails (w : Nat) (ticks : List ProgressTick)
    (resp : EndpointResponse) (h : resp.etag = none) :
    (uploadFile w ticks false resp).getLast?
        = some (UploadEvent.rejected UploadError.missingFingerprint) ∧
    resolvedEtag (uploadFile w ticks false resp) = none ∧
    (∃ pre post, uploadErrorMessage UploadError.missingFingerprint
        = pre ++ "Missing Etag" ++ post) := by
  have heq : uploadFile w ticks false resp
      = tickEvents w ticks ++ [UploadEvent.rejected UploadError.missingFingerprint] := by
    simp [uploadFile, h]
  refine ⟨?_, ?_, "", " in upload response", rfl⟩
  · rw [heq]; simp
  · rw [heq, resolvedEtag_tickEvents_append]; rfl

/-- C1, witness: the response with empty headers makes the upload fail
with the missing-fingerprint error and yields no fingerprint. -/
theorem c1_missing_fingerprint_fails_witness :
    (uploadFile 90 [] false (EndpointResponse.mk none)).getLast?
        = some (UploadEvent.rejected UploadError.missingFingerprint) ∧
    resolvedEtag (uploadFile 90 [] false (EndpointResponse.mk none)) = none ∧
    (∃ pre post, uploadErrorMessage UploadError.missingFingerprint
        = pre ++ "Missing Etag" ++ post) :=
  c1_missing_fingerprint_fails 90 [] (EndpointResponse.mk none) rfl

/-- C2: with transfer weight 90, every I/O tick invokes the progress
callback with floor(bytesSent / totalBytes * 90), in tick order; in
particular the tick sequence loaded 50 of 100 then 100 of 100 produces the
callback values 45 then 90, followed by the final 100 on success. -/
theorem c2_progress_scaling (ticks : List ProgressTick) (ab : Bool)
    (resp : EndpointResponse) :
    (∃ rest, progressValues (uploadFile 90 ticks ab resp)
        = ticks.map (fun t => t.loaded * 90 / t.total) ++ rest) ∧
    progressValues (uploadFile 90 [ProgressTick.mk 50 100, ProgressTick.mk 100 100]
        false (EndpointResponse.mk (some "test-etag"))) = [45, 90, 100] := by
  constructor
  · have hmap : ticks.map (fun t => t.loaded * 90 / t.total) = ticks.map (tickPct 90) := rfl
    rw [hmap]
    obtain ⟨tail, ht⟩ := uploadFile_eq_tickEvents_append 90 ticks ab resp
    exact ⟨progressValues tail, by
      rw [ht, progressValues_append, progressValues_tickEvents]⟩
  · decide

/-- C5: for every upload whose endpoint response carries a non-empty
fingerprint header, `uploadFile` resolves successfully and the resolved
fingerprint equals the header value verbatim; in particular a response
with fingerprint "test-etag" resolves with fingerprint "test-etag". -/
theorem c5_fingerprint_verbatim (w : Nat) (ticks : List ProgressTick) (e : String)
    (hne : e ≠ "") :
    resolvedEtag (uploadFile w ticks false (EndpointResponse.mk (some e))) = some e ∧
    succeeds (uploadFile w ticks false (EndpointResponse.mk (some e))) = true ∧
    resolvedEtag (uploadFile w ticks false (EndpointResponse.mk (some "test-etag")))
      = some "test-etag" := by
  have heq : ∀ s : String, s ≠ "" →
      uploadFile w ticks false (EndpointResponse.mk (some s))
        = tickEvents w ticks ++ [UploadEvent.progress 100, UploadEvent.resolved s] := by
    intro s hs
    simp [uploadFile, hs]
  refine ⟨?_, ?_, ?_⟩
  · rw [heq e hne, resolvedEtag_tickEvents_append]; rfl
  · rw [heq e hne, succeeds_tickEvents_append]; rfl
  · rw [heq "test-etag" (by decide), resolvedEtag_tickEvents_append]; rfl

/-- C5, witness: the response carrying the etag "test-etag" resolves with
exactly that fingerprint. -/
theorem c5_fingerprint_verbatim_witness :
    resolvedEtag (uploadFile 90 [] false (EndpointResponse.mk (some "test-etag")))
      = some "test-etag" ∧
    succeeds (uploadFile 90 [] false (EndpointResponse.mk (some "test-etag"))) = true ∧
    resolvedEtag (uploadFile 90 [] false (EndpointResponse.mk (some "test-etag")))
      = some "test-etag" :=
  c5_fingerprint_verbatim 90 [] "test-etag" (by decide)

/-- C6: for every upload aborted before the endpoint's response arrives,
`uploadFile` rejects with `TransferAbortedError` and no fingerprint is
returned, whatever response the already-dispatched request would have
produced. -/
theorem c6_abort_rejects (w : Nat) (ticks : List ProgressTick) (resp : EndpointResponse) :
    (uploadFile w ticks true resp).getLast?
      = some (UploadEvent.rejected UploadError.transferAborted) ∧
    resolvedEtag (uploadFile w ticks true resp) = none := by
  have heq : uploadFile w ticks true resp
      = tickEvents w ticks ++ [UploadEvent.rejected UploadError.transferAborted] := by
    simp [uploadFile]
  exact ⟨by rw [heq]; simp, by rw [heq, resolvedEtag_tickEvents_append]; rfl⟩

/-- C3: for every single upload whose I/O ticks report a fixed positive
total with non-decreasing sent-byte counts never exceeding the total, the
sequence of values passed to the progress callback is non-decreasing, its
final value is exactly 100 if and only if the operation succeeds, and
every event except the terminating one is a progress callback, so no
callback occurs after the failure, abort, or resolution event. -/
theorem c3_progress_invariants (loadeds : List Nat) (N : Nat) (ab : Bool)
    (resp : EndpointResponse) (hN : 0 < N) (hle : ∀ l ∈ loadeds, l ≤ N)
    (hmono : List.Chain' (fun a b => a ≤ b) loadeds) :
    List.Chain' (fun a b => a ≤ b)
      (progressValues (uploadFile 90 (loadeds.map (fun l => ProgressTick.mk l N)) ab resp)) ∧
    ((progressValues
        (uploadFile 90 (loadeds.map (fun l => ProgressTick.mk l N)) ab resp)).getLast?
        = some 100
      ↔ succeeds (uploadFile 90 (loadeds.map (fun l => ProgressTick.mk l N)) ab resp)
        = true) ∧
    (∀ x ∈ (uploadFile 90 (loadeds.map (fun l => ProgressTick.mk l N)) ab resp).dropLast,
      ∃ p, x = UploadEvent.progress p) := by
  have hpcts : progressValues (tickEvents 90 (loadeds.map (fun l => ProgressTick.mk l N)))
      = loadeds.map (fun l => l * 90 / N) := by
    rw [progressValues_tickEvents, List.map_map]; rfl
  have hchain : List.Chain' (fun a b => a ≤ b) (loadeds.map (fun l => l * 90 / N)) :=
    List.chain'_map_of_chain' (fun l => l * 90 / N)
      (fun a b h => Nat.div_le_div_right (mul_le_mul_right' h 90)) hmono
  have hNdiv : N * 90 / N = 90 := by
    rw [Nat.mul_comm]
    exact Nat.mul_div_cancel 90 hN
  have hbound : ∀ p ∈ loadeds.map (fun l => l * 90 / N), p ≤ 90 := by
    intro p hp
    obtain ⟨l, hl, rfl⟩ := List.mem_map.1 hp
    calc l * 90 / N ≤ N * 90 / N :=
          Nat.div_le_div_right (mul_le_mul_right' (hle l hl) 90)
      _ = 90 := hNdiv
  have hmemProgress : ∀ x ∈ tickEvents 90 (loadeds.map (fun l => ProgressTick.mk l N)),
      ∃ p, x = UploadEvent.progress p := by
    intro x hx
    obtain ⟨t, _, rfl⟩ := List.mem_map.1 hx
    exact ⟨_, rfl⟩
  rcases uploadFile_shape 90 (loadeds.map (fun l => ProgressTick.mk l N)) ab resp with
    ⟨err, hshape⟩ | ⟨e, hne, hshape⟩
  · have hpv : progressValues
        (uploadFile 90 (loadeds.map (fun l => ProgressTick.mk l N)) ab resp)
        = loadeds.map (fun l => l * 90 / N) := by
      rw [hshape, progressValues_append, hpcts]
      simp [progressValues]
    refine ⟨?_, ?_, ?_⟩
    · rw [hpv]; exact hchain
    · rw [hpv, hshape, succeeds_tickEvents_append]
      constructor
      · intro h100
        have hmem100 : (100 : Nat) ∈ (loadeds.map (fun l => l * 90 / N)).getLast? := by
          simp [h100]
        obtain ⟨hne2, hlast⟩ := List.mem_getLast?_eq_getLast hmem100
        have h100mem : (100 : Nat) ∈ loadeds.map (fun l => l * 90 / N) := by
          rw [hlast]
          exact List.getLast_mem hne2
        have := hbound 100 h100mem
        omega
      · intro hsucc
        simp [succeeds] at hsucc
    · intro x hx
      rw [hshape] at hx
      have hd : (tickEvents 90 (loadeds.map (fun l => ProgressTick.mk l N))
          ++ [UploadEvent.rejected err]).dropLast
          = tickEvents 90 (loadeds.map (fun l => ProgressTick.mk l N)) := by simp
      rw [hd] at hx
      exact hmemProgress x hx
  · have hpv : progressValues
        (uploadFile 90 (loadeds.map (fun l => ProgressTick.mk l N)) ab resp)
        = loadeds.map (fun l => l * 90 / N) ++ [100] := by
      rw [hshape, progressValues_append, hpcts]
      simp [progressValues]
    refine ⟨?_, ?_, ?_⟩
    · rw [hpv]
      refine List.chain'_append.2 ⟨hchain, List.chain'_singleton 100, ?_⟩
      intro x hx y hy
      obtain ⟨hne2, hlast⟩ := List.mem_getLast?_eq_getLast hx
      have hxmem : x ∈ loadeds.map (fun l => l * 90 / N) := by
        rw [hlast]
        exact List.getLast_mem hne2
      have hx90 := hbound x hxmem
      have hy100 : 100 = y := by simpa using hy
      omega
    · rw [hpv, hshape, succeeds_tickEvents_append]
      constructor
      · intro _
        simp [succeeds]
      · intro _
        simp
    · intro x hx
      rw [hshape] at hx
      have hd : (tickEvents 90 (loadeds.map (fun l => ProgressTick.mk l N))
          ++ [UploadEvent.progress 100, UploadEvent.resolved e]).dropLast
          = tickEvents 90 (loadeds.map (fun l => ProgressTick.mk l N))
            ++ [UploadEvent.progress 100] := by
        rw [show tickEvents 90 (loadeds.map (fun l => ProgressTick.mk l N))
            ++ [UploadEvent.progress 100, UploadEvent.resolved e]
            = (tickEvents 90 (loadeds.map (fun l => ProgressTick.mk l N))
              ++ [UploadEvent.progress 100]) ++ [UploadEvent.resolved e] by simp]
        simp
      rw [hd] at hx
      rcases List.mem_append.1 hx with hx1 | hx2
      · exact hmemProgress x hx1
      · exact ⟨100, by simpa using hx2⟩

/-- C3, witness: the two-tick transfer 50 of 100 then 100 of 100 followed
by the etag response satisfies all three progress invariants. -/
theorem c3_progress_invariants_witness :
    List.Chain' (fun a b => a ≤ b)
      (progressValues (uploadFile 90 ([50, 100].map (fun l => ProgressTick.mk l 100)) false
        (EndpointResponse.mk (some "test-etag")))) ∧
    ((progressValues (uploadFile 90 ([50, 100].map (fun l => ProgressTick.mk l 100)) false
        (EndpointResponse.mk (some "test-etag")))).getLast? = some 100
      ↔ succeeds (uploadFile 90 ([50, 100].map (fun l => ProgressTick.mk l 100)) false
        (EndpointResponse.mk (some "test-etag"))) = true) ∧
    (∀ x ∈ (uploadFile 90 ([50, 100].map (fun l => ProgressTick.mk l 100)) false
        (EndpointResponse.mk (some "test-etag"))).dropLast,
      ∃ p, x = UploadEvent.progress p) :=
  c3_progress_invariants [50, 100] 100 false (EndpointResponse.mk (some "test-etag"))
    (by decide) (by decide) (List.chain'_cons.2 ⟨by omega, List.chain'_singleton 100⟩)

/-- C4: invoking the upload pipeline with a zero-length source is rejected
by the empty-object guard before any step runs (the trace is empty, so no
network call is attempted), with the dedicated empty-file error, which is
distinct from every other error of the command and carries the guard's
message verbatim. -/
theorem c4_empty_source_rejected (folderId : Option Int) (env : RunEnv) :
    Upload.run 0 folderId env = ([], Except.error CmdError.emptyFile) ∧
    (∀ e : UploadError, CmdError.emptyFile ≠ CmdError.uploadFailed e) ∧
    CmdError.emptyFile ≠ CmdError.createFileFailed ∧
    cmdErrorMessage CmdError.emptyFile
      = "File is empty, cannot upload empty files as is not allowed." := by
  refine ⟨rfl, fun e h => CmdError.noConfusion h, fun h => CmdError.noConfusion h, rfl⟩

/-- C8: the SIGINT handler installed during an upload invokes the abort
handle exactly once, and only then exits the process, with the non-zero
status 1. -/
theorem c8_sigint_aborts_then_exits :
    sigintHandler
      = [SigintAction.abortCall "SIGINT received", SigintAction.processExit 1] ∧
    sigintHandler.countP (fun a =>
      match a with
      | SigintAction.abortCall _ => true
      | _ => false) = 1 ∧
    (∀ c, SigintAction.processExit c ∈ sigintHandler → c ≠ 0) := by
  refine ⟨rfl, by decide, ?_⟩
  intro c hc
  simp [sigintHandler] at hc
  omega

theorem createFile_mem_run (size : Nat) (folderId : Option Int) (env : RunEnv)
    (fid : Int) (f : String)
    (hmem : RunStep.createFile fid f ∈ (Upload.run size folderId env).1) :
    ∃ res, env.uploadResult = Except.ok res ∧ f = res.fileId ∧
      fid = folderId.getD env.root_folder_id := by
  by_cases hsz : size = 0
  · simp [Upload.run, hsz] at hmem
  · rcases hres : env.uploadResult with e2 | res
    · by_cases ht : truthy folderId <;>
        simp [Upload.run, hsz, hres, ht] at hmem
    · refine ⟨res, rfl, ?_⟩
      by_cases ht : truthy folderId <;>
        by_cases hok : env.createFileOk <;>
          simp [Upload.run, hsz, hres, ht, hok] at hmem <;>
            exact ⟨hmem.2, hmem.1⟩

/-- C9: for every upload attempt in which the upload promise fails, the
failure is surfaced through the command's result as an upload failure and
no catalog `createFile` step occurs; and a catalog `createFile` step
occurs only when the upload result resolved successfully, registering that
result's file id. -/
theorem c9_no_catalog_after_failure (size : Nat) (folderId : Option Int) (env : RunEnv)
    (e : UploadError) (hsz : size ≠ 0) (hfail : env.uploadResult = Except.error e) :
    ((Upload.run size folderId env).2 = Except.error (CmdError.uploadFailed e) ∧
     (∀ fid f, RunStep.createFile fid f ∉ (Upload.run size folderId env).1)) ∧
    (∀ env2 fid f, RunStep.createFile fid f ∈ (Upload.run size folderId env2).1 →
      ∃ res, env2.uploadResult = Except.ok res ∧ f = res.fileId) := by
  refine ⟨⟨?_, ?_⟩, ?_⟩
  · by_cases ht : truthy folderId <;> simp [Upload.run, hsz, hfail, ht]
  · intro fid f
    by_cases ht : truthy folderId <;> simp [Upload.run, hsz, hfail, ht]
  · intro env2 fid f hmem
    obtain ⟨res, hok, hf, _⟩ := createFile_mem_run size folderId env2 fid f hmem
    exact ⟨res, hok, hf⟩

/-- C9, witness: a failed upload of a non-empty file surfaces the transfer
fault and registers nothing in the catalog. -/
theorem c9_no_catalog_after_failure_witness :
    ((Upload.run 1 none
        (RunEnv.mk (Except.error UploadError.transferFault) true 42 "uuid-1")).2
      = Except.error (CmdError.uploadFailed UploadError.transferFault) ∧
     (∀ fid f, RunStep.createFile fid f ∉ (Upload.run 1 none
        (RunEnv.mk (Except.error UploadError.transferFault) true 42 "uuid-1")).1)) ∧
    (∀ env2 fid f, RunStep.createFile fid f ∈ (Upload.run 1 none env2).1 →
      ∃ res, env2.uploadResult = Except.ok res ∧ f = res.fileId) :=
  c9_no_catalog_after_failure 1 none
    (RunEnv.mk (Except.error UploadError.transferFault) true 42 "uuid-1")
    UploadError.transferFault (by decide) rfl

/-- C10: for every run of the upload command without a folderId flag, the
root-folder warning is emitted and the file is registered under the user's
root folder id; when a folderId flag is given, the file is registered
under exactly that folder id. -/
theorem c10_folder_selection (size : Nat) (env : RunEnv) (r : UploadResult)
    (hsz : size ≠ 0) (hup : env.uploadResult = Except.ok r) :
    (RunStep.warning warningMsg ∈ (Upload.run size none env).1 ∧
     RunStep.createFile env.root_folder_id r.fileId ∈ (Upload.run size none env).1) ∧
    (∀ n : Int, RunStep.createFile n r.fileId ∈ (Upload.run size (some n) env).1) := by
  refine ⟨⟨?_, ?_⟩, ?_⟩
  · by_cases hok : env.createFileOk <;>
      simp [Upload.run, hsz, hup, hok, truthy]
  · by_cases hok : env.createFileOk <;>
      simp [Upload.run, hsz, hup, hok, truthy]
  · intro n
    by_cases hn : n = 0 <;>
      by_cases hok : env.createFileOk <;>
        simp [Upload.run, hsz, hup, hok, truthy, hn]

/-- C10, witness: without the flag the warning occurs and the file goes to
root folder 42; with flag 7 it goes to folder 7. -/
theorem c10_folder_selection_witness :
    (RunStep.warning warningMsg ∈ (Upload.run 1 none
        (RunEnv.mk (Except.ok (UploadResult.mk "file-1")) true 42 "uuid-1")).1 ∧
     RunStep.createFile
        (RunEnv.mk (Except.ok (UploadResult.mk "file-1")) true 42 "uuid-1").root_folder_id
        (UploadResult.mk "file-1").fileId
      ∈ (Upload.run 1 none
        (RunEnv.mk (Except.ok (UploadResult.mk "file-1")) true 42 "uuid-1")).1) ∧
    (∀ n : Int, RunStep.createFile n (UploadResult.mk "file-1").fileId
      ∈ (Upload.run 1 (some n)
        (RunEnv.mk (Except.ok (UploadResult.mk "file-1")) true 42 "uuid-1")).1) :=
  c10_folder_selection 1 (RunEnv.mk (Except.ok (UploadResult.mk "file-1")) true 42 "uuid-1")
    (UploadResult.mk "file-1") (by decide) rfl

theorem encryptChunk_eq (key : List Nat) (chunk : List Nat) :
    ∀ c, encryptChunk (CipherContext.mk key c) chunk
      = (encryptBytesFrom key c chunk, CipherContext.mk key (c + chunk.length)) := by
  induction chunk with
  | nil => intro c; simp [encryptChunk, encryptBytesFrom]
  | cons b bs ih =>
    intro c
    have hlen : c + 1 + bs.length = c + (bs.length + 1) := by omega
    simp [encryptChunk, encryptByte, encryptBytesFrom, ih (c + 1), hlen]

theorem encryptBytesFrom_append (key : List Nat) (bs cs : List Nat) :
    ∀ c, encryptBytesFrom key c (bs ++ cs)
      = encryptBytesFrom key c bs ++ encryptBytesFrom key (c + bs.length) cs := by
  induction bs with
  | nil => intro c; simp [encryptBytesFrom]
  | cons b bs ih =>
    intro c
    have hlen : c + 1 + bs.length = c + (bs.length + 1) := by omega
    simp [encryptBytesFrom, ih (c + 1), hlen]

theorem encrypt_foldl (key : List Nat) (chunks : List (List Nat)) :
    ∀ (acc : List Nat) (c : Nat),
      chunks.foldl
        (fun acc chunk =>
          let r := encryptChunk acc.2 chunk
          (acc.1 ++ r.1, r.2))
        (acc, CipherContext.mk key c)
      = (acc ++ encryptBytesFrom key c chunks.flatten,
         CipherContext.mk key (c + chunks.flatten.length)) := by
  induction chunks with
  | nil => intro acc c; simp [encryptBytesFrom]
  | cons ch chs ih =>
    intro acc c
    simp only [List.foldl_cons, encryptChunk_eq]
    rw [ih (acc ++ encryptBytesFrom key c ch) (c + ch.length)]
    simp [List.flatten_cons, encryptBytesFrom_append, List.append_assoc]
    omega

theorem encrypt_eq_bytes (chunks : List (List Nat)) (sharedSecret objectContext : List Nat) :
    encrypt chunks sharedSecret objectContext
      = encryptBytesFrom (deriveKey sharedSecret objectContext) 0 chunks.flatten := by
  unfold encrypt initCipher
  rw [encrypt_foldl]
  simp

/-- C7: the streaming encryption is a deterministic function of the source
byte sequence, the shared secret and the object context: two runs over the
same source bytes — even streamed with different chunk boundaries — yield
byte-identical ciphertext. -/
theorem c7_encrypt_deterministic (sharedSecret objectContext : List Nat)
    (chunksA chunksB : List (List Nat)) (h : chunksA.flatten = chunksB.flatten) :
    encrypt chunksA sharedSecret objectContext
      = encrypt chunksB sharedSecret objectContext := by
  rw [encrypt_eq_bytes, encrypt_eq_bytes, h]

/-- C7, witness: streaming the bytes 1, 2, 3 as the chunks [1, 2], [3] or
as [1], [2, 3] yields the same ciphertext. -/
theorem c7_encrypt_deterministic_witness :
    encrypt [[1, 2], [3]] [5, 6] [7] = encrypt [[1], [2, 3]] [5, 6] [7] :=
  c7_encrypt_deterministic [5, 6] [7] [[1, 2], [3]] [[1], [2, 3]] (by decide)

end Internxt
